import Mathlib

/-!
Verification development for the dydx-tracker repository.

Shallow embedding conventions:
* Decimal.js arbitrary-precision decimal values, and the decimal strings the
  dYdX feed delivers, are modelled as exact rationals.  Fields that may be the
  JSON value null are Option-valued (none = null/undefined; note that in the
  source the nullable fields are nonempty decimal strings whenever present, so
  JS truthiness coincides with Option.isSome for them).
* Thrown JS exceptions are modelled with Except; a try/catch that merely logs
  and continues is modelled by discarding the error branch.
* The JS Map holding a trader's open lanes is modelled as an association list
  with Map semantics: set replaces in place, delete filters, insertion order
  is preserved.
* The two places where createNewPosition / updateExistingPosition compute
  realised_pnl with binary floating point (JS Number arithmetic) are embedded
  twice: once as the exact rational the spec asserts, and once (for the
  concrete failing input) as the exact value of the IEEE-754 double
  computation, see the float section below.
-/

namespace DydxTracker

/-- Model of the dash-deleting JS regex replace used to turn a market name
such as BTC-USD into the token symbol BTCUSD. -/
def removeDashes (s : String) : String :=
  String.mk (s.data.filter (fun c => c ≠ '-'))

/-- A dYdX perpetual position payload as consumed by the tracker
(src/utils/functions.ts, src/utils/trading.ts).  Decimal strings are
modelled as exact rationals; nullable prices as Option. -/
structure Position where
  market : String
  side : String
  status : String
  size : ℚ
  sumOpen : ℚ
  sumClose : ℚ
  entryPrice : Option ℚ
  exitPrice : Option ℚ
  netFunding : ℚ
  createdAtHeight : String
  createdAt : String
deriving DecidableEq, Repr

/-- A fill payload; only the two fields the tracker reads. -/
structure Fill where
  createdAtHeight : String
  createdAt : String
deriving DecidableEq, Repr

/-- The trader_position object built by the tracker (TradeInterface plus the
lifecycle tag `type`).  bias: 1 = long, 0 = short. -/
structure TraderPosition where
  user : ℕ
  trade_id : String
  trader_address : String
  token : String
  bias : ℕ
  size : ℚ
  sum_open : ℚ
  sum_close : ℚ
  limit_price : Option ℚ
  exit_price : Option ℚ
  start_date : String
  end_date : Option String
  funding : ℚ
  realised_pnl : ℚ
  pnl : ℚ
  is_profitable : ℕ
  type : String
deriving DecidableEq, Repr

/-- The realised-PnL expression shared by createNewPosition and
updateExistingPosition (functions.ts lines 57-62 and 103-108), read as the
exact rational value of
  sumClose * (exitPrice - entryPrice), negated unless side = LONG.
NOTE: the source computes this with JS Number (binary double) arithmetic;
this definition is the exact value the spec claims is stored.  The float
section below evaluates the double computation at a concrete input. -/
def realisedPnlExact (position : Position) : ℚ :=
  let pnl0 : ℚ :=
    match position.exitPrice, position.entryPrice with
    | some exitP, some entryP => position.sumClose * (exitP - entryP)
    | _, _ => 0
  if position.side = "LONG" then pnl0 else -pnl0

/-- createNewPosition (functions.ts lines 44-87).  blockHeight0/createdAt0
model the JS default-null parameters with their truthiness fallbacks. -/
def createNewPosition (user : ℕ) (position : Position) (address : String)
    (blockHeight0 : Option String) (createdAt0 : Option String)
    (type : String) : TraderPosition :=
  let symbol := removeDashes position.market
  let blockHeight := blockHeight0.getD position.createdAtHeight
  let createdAt := createdAt0.getD position.createdAt
  { user := user
    trade_id := address ++ "-" ++ symbol ++ "-" ++ position.side ++ "-" ++ blockHeight
    trader_address := address
    token := symbol
    bias := if position.side = "LONG" then 1 else 0
    size := position.size
    sum_open := position.sumOpen
    sum_close := position.sumClose
    limit_price := position.entryPrice
    exit_price := position.exitPrice
    start_date := createdAt
    end_date := none
    funding := position.netFunding
    realised_pnl := realisedPnlExact position
    pnl := 0
    is_profitable := 0
    type := type }

/-- updateExistingPosition (functions.ts lines 99-124): recompute the
realised PnL and overwrite size/sums/prices/funding in place. -/
def updateExistingPosition (trader_position : TraderPosition)
    (position : Position) : TraderPosition :=
  { trader_position with
    size := position.size
    sum_open := position.sumOpen
    sum_close := position.sumClose
    limit_price := position.entryPrice
    exit_price := position.exitPrice
    funding := position.netFunding
    realised_pnl := realisedPnlExact position
    pnl := 0
    is_profitable := 0
    type := "update" }

/-- flipPosition (functions.ts lines 137-189).  Decimal.js arithmetic is
modelled exactly over the rationals.  A null entryPrice or a null lane
limit_price makes the Decimal constructor / Decimal.minus throw, which the
caller catches: modelled as Except.error.  The unary minus the source applies
to the Decimal adjusted_size for short lanes coerces through a JS number;
it is exact for every size that round-trips through a double and is modelled
as exact negation. -/
def flipPosition (trader_position : TraderPosition) (position : Position)
    (end_date : String) : Except String TraderPosition :=
  match position.entryPrice, trader_position.limit_price with
  | some entryP, some limitP =>
    -- amount moved to the other position
    let last_position := position.sumOpen - |position.size| - position.sumClose
    let avg_close : ℚ :=
      match trader_position.exit_price with
      | some exitP =>
        (last_position * entryP + trader_position.sum_close * exitP) /
          (trader_position.sum_close + last_position)
      | none => entryP
    let adjusted_size0 := trader_position.sum_close + last_position
    let adjusted_size := if trader_position.bias = 0 then -adjusted_size0 else adjusted_size0
    let pnl := adjusted_size * (avg_close - limitP) + trader_position.funding
    Except.ok
      { trader_position with
        size := adjusted_size
        exit_price := some avg_close
        end_date := some end_date
        realised_pnl := 0
        pnl := pnl
        is_profitable := if 0 < pnl then 1 else 0
        type := "close" }
  | _, _ => Except.error "DecimalError"

/-- closePosition (functions.ts lines 200-230).  Null exitPrice/entryPrice
make the Decimal constructor throw (Except.error); otherwise the final pnl is
signed size times the price difference. -/
def closePosition (trader_position : TraderPosition) (position : Position)
    (end_date : String) : Except String TraderPosition :=
  match position.exitPrice, position.entryPrice with
  | some exitP, some entryP =>
    let size : ℚ := if position.side = "LONG" then position.sumClose else -position.sumClose
    let pnl := size * (exitP - entryP)
    Except.ok
      { trader_position with
        size := size
        limit_price := some entryP
        exit_price := some exitP
        end_date := some end_date
        realised_pnl := 0
        pnl := pnl
        is_profitable := if 0 < pnl then 1 else 0
        type := "close" }
  | _, _ => Except.error "DecimalError"

/-- The per-trader lane map TRADER_POSITIONS: a JS Map from token symbol to
the live TraderPosition, modelled as an association list in insertion
order. -/
abbrev LaneMap : Type := List (String × TraderPosition)

/-- Map.get: the value stored under key k, if any. -/
def mapGet (m : LaneMap) (k : String) : Option TraderPosition :=
  match m with
  | [] => none
  | e :: rest => if e.1 = k then some e.2 else mapGet rest k

/-- Map.has. -/
def mapHas (m : LaneMap) (k : String) : Bool :=
  (mapGet m k).isSome

/-- Map.set: replace the entry in place when the key is present, append
otherwise. -/
def mapSet (m : LaneMap) (k : String) (v : TraderPosition) : LaneMap :=
  if mapHas m k then
    m.map (fun e => if e.1 = k then (k, v) else e)
  else
    m ++ [(k, v)]

/-- Map.delete. -/
def mapDelete (m : LaneMap) (k : String) : LaneMap :=
  m.filter (fun e => e.1 ≠ k)

/-- Number of live entries a symbol has in the lane map. -/
def countKey (m : LaneMap) (k : String) : ℕ :=
  (m.map Prod.fst).count k

/-- One iteration of the processSubscriptions loop (trading.ts lines 60-86):
untracked symbols and symbols already present are skipped; each new lane is
created with lifecycle tag "update" and handed to aggregatePositions. -/
def subscriptionStep (user : ℕ) (tracked : String → Bool) (traderAddress : String)
    (acc : LaneMap × List TraderPosition) (entry : String × Position) :
    LaneMap × List TraderPosition :=
  if ¬ tracked (removeDashes entry.1) then acc
  else if mapHas acc.1 (removeDashes entry.1) then acc
  else
    let new_position :=
      createNewPosition user entry.2 traderAddress
        (some entry.2.createdAtHeight) (some entry.2.createdAt) "update"
    (mapSet acc.1 (removeDashes entry.1) new_position, acc.2 ++ [new_position])

/-- processSubscriptions (trading.ts lines 50-93): seed the lane map from a
snapshot.  The openPerpetualPositions object is an association list keyed by
the dashed market name.  Rows handed to aggregatePositions are returned
alongside the updated map. -/
def processSubscriptions (user : ℕ) (tracked : String → Bool)
    (m : LaneMap) (traderAddress : String)
    (positions : Option (List (String × Position))) : LaneMap × List TraderPosition :=
  match positions with
  | none => (m, [])
  | some entries =>
    if entries.isEmpty then (m, [])
    else entries.foldl (subscriptionStep user tracked traderAddress) (m, [])

/-- One iteration of the updatePosition loop (trading.ts lines 119-183) for a
single position payload, given the fill list of the frame.  The per-position
try/catch turns any thrown error (fills[0] access on an empty fill list,
Decimal errors inside flip/close, the bare "Unrecognised case" throw) into a
skip that leaves the map unchanged and emits nothing. -/
def updatePositionStep (user : ℕ) (tracked : String → Bool)
    (traderAddress : String) (fills : List Fill)
    (m : LaneMap) (position : Position) : LaneMap × List TraderPosition :=
  let symbol := removeDashes position.market
  let bias : ℕ := if position.side = "LONG" then 1 else 0
  if ¬ tracked symbol then (m, [])
  else
    match mapGet m symbol with
    | none =>
      -- CASE 1: create completely new position; fills[0] on an empty fill
      -- list throws before createNewPosition runs.
      match fills with
      | [] => (m, [])
      | f :: _ =>
        let tp := createNewPosition user position traderAddress
          (some f.createdAtHeight) (some f.createdAt) "open"
        (mapSet m symbol tp, [tp])
    | some trader_position =>
      if position.status = "OPEN" ∧ trader_position.bias = bias then
        -- CASE 2: update existing position (no fill data is read).
        let tp := updateExistingPosition trader_position position
        (mapSet m symbol tp, [tp])
      else if position.status = "OPEN" ∧ trader_position.bias ≠ bias then
        -- CASE 3: change direction; fills[0].createdAt is evaluated before
        -- flipPosition is entered, so an empty fill list aborts the case.
        match fills with
        | [] => (m, [])
        | f :: _ =>
          match flipPosition trader_position position f.createdAt with
          | Except.error _ => (m, [])
          | Except.ok closed =>
            let tp := createNewPosition user position traderAddress
              (some f.createdAtHeight) (some f.createdAt) "open"
            (mapSet m symbol tp, [closed, tp])
      else if position.status = "CLOSED" then
        -- CASE 4: close completely; trader_position is set to null and the
        -- lane deleted.
        match fills with
        | [] => (m, [])
        | f :: _ =>
          match closePosition trader_position position f.createdAt with
          | Except.error _ => (m, [])
          | Except.ok closed => (mapDelete m symbol, [closed])
      else (m, [])  -- throw "Unrecognised case", caught by the inner catch

/-- updatePosition (trading.ts lines 107-192): a falsy fill list or position
list drops the frame outright; otherwise every position of the frame is
folded through updatePositionStep.  The emitted ledger rows are collected in
order. -/
def updatePosition (user : ℕ) (tracked : String → Bool)
    (traderAddress : String) (m : LaneMap)
    (positions : Option (List Position)) (fills : Option (List Fill)) :
    LaneMap × List TraderPosition :=
  match fills, positions with
  | none, _ => (m, [])
  | some _, none => (m, [])
  | some fs, some ps =>
    ps.foldl
      (fun acc p =>
        let r := updatePositionStep user tracked traderAddress fs acc.1 p
        (r.1, acc.2 ++ r.2))
      (m, [])

/-- One inbound frame of the per-trader feed, as dispatched by the message
queue (websocket.ts lines 74-94): a subscription snapshot or an incremental
channel_data update. -/
inductive FeedEvent where
  | snapshot (positions : Option (List (String × Position)))
  | update (positions : Option (List Position)) (fills : Option (List Fill))
deriving Repr

/-- Apply one frame to the lane map. -/
def applyEvent (user : ℕ) (tracked : String → Bool) (traderAddress : String)
    (m : LaneMap) : FeedEvent → LaneMap
  | FeedEvent.snapshot ps => (processSubscriptions user tracked m traderAddress ps).1
  | FeedEvent.update ps fs => (updatePosition user tracked traderAddress m ps fs).1

/-- Apply a sequence of frames in receipt order. -/
def applyEvents (user : ℕ) (tracked : String → Bool) (traderAddress : String)
    (m : LaneMap) (events : List FeedEvent) : LaneMap :=
  events.foldl (applyEvent user tracked traderAddress) m

/-! Persistence pipeline: the processor queue (unnamed part_003), the batch
insert processPositions (functions.ts lines 238-291) and the database layer
(unnamed parts 002 and 004). -/

/-- constants.ts: amounts use a 6-digit scale. -/
def AMOUNT_DECIMALS : ℕ := 6

/-- constants.ts: prices use an 18-digit scale. -/
def PRICE_DECIMALS : ℕ := 18

/-- Integer part of a rational, truncated toward zero (the behaviour of the
string manipulation in convertToDecimal: the decimal string is cut after
`decimals` fractional digits and handed to parseUnits). -/
def ratTrunc (q : ℚ) : ℤ :=
  q.num / (q.den : ℤ)

/-- convertToDecimal (functions.ts lines 20-30): null propagates; otherwise
the decimal string is truncated to `decimals` fractional digits and scaled to
an integer by parseUnits. -/
def convertToDecimal (amount : Option ℚ) (decimals : ℕ) : Option ℤ :=
  amount.map (fun q => ratTrunc (q * (10 : ℚ) ^ decimals))

/-- convertToSqlDate reformats an ISO timestamp string into the SQL datetime
layout; the reformatting itself is irrelevant to every claim, so it is
modelled as the identity on the carried string. -/
def convertToSqlDate (s : String) : String := s

/-- The row pushed to TO_PROCESS by processorQueue (unnamed part_003 lines
17-51), in push order.  Note that the queue reads every TraderPosition field
except sum_close: the emitted row has no sum_close entry. -/
structure EmittedRow where
  user : ℕ
  trade_id : String
  trader_address : String
  token : String
  bias : ℕ
  size : Option ℤ
  sum_open : Option ℤ
  limit_price : Option ℤ
  exit_price : Option ℤ
  start_date : String
  end_date : Option String
  funding : Option ℤ
  realised_pnl : Option ℤ
  pnl : Option ℤ
  is_profitable : ℕ
  timestamp : String
  type : String
deriving DecidableEq, Repr

/-- processorQueue body: convert a trader position into the array pushed to
TO_PROCESS.  `now` stands for the getSqlDate() server timestamp. -/
def processorQueueRow (now : String) (tp : TraderPosition) : EmittedRow :=
  { user := tp.user
    trade_id := tp.trade_id
    trader_address := tp.trader_address
    token := tp.token
    bias := tp.bias
    size := convertToDecimal (some tp.size) AMOUNT_DECIMALS
    sum_open := convertToDecimal (some tp.sum_open) AMOUNT_DECIMALS
    limit_price := convertToDecimal tp.limit_price PRICE_DECIMALS
    exit_price := convertToDecimal tp.exit_price PRICE_DECIMALS
    start_date := convertToSqlDate tp.start_date
    end_date := tp.end_date.map convertToSqlDate
    funding := convertToDecimal (some tp.funding) AMOUNT_DECIMALS
    realised_pnl := convertToDecimal (some tp.realised_pnl) AMOUNT_DECIMALS
    pnl := convertToDecimal (some tp.pnl) AMOUNT_DECIMALS
    is_profitable := tp.is_profitable
    timestamp := now
    type := tp.type }

/-- The 16 columns of the INSERT in processPositions: position.slice(0, -1)
drops the trailing lifecycle tag, the remaining entries line up with the
column list user..timestamp.  sum_close is not among them. -/
structure PersistedRow where
  user : ℕ
  trade_id : String
  trader_address : String
  token : String
  bias : ℕ
  size : Option ℤ
  sum_open : Option ℤ
  limit_price : Option ℤ
  exit_price : Option ℤ
  start_date : String
  end_date : Option String
  funding : Option ℤ
  realised_pnl : Option ℤ
  pnl : Option ℤ
  is_profitable : ℕ
  timestamp : String
deriving DecidableEq, Repr

/-- position.slice(0, -1): drop the lifecycle tag from the emitted row. -/
def stripTag (r : EmittedRow) : PersistedRow :=
  { user := r.user, trade_id := r.trade_id, trader_address := r.trader_address
    token := r.token, bias := r.bias, size := r.size, sum_open := r.sum_open
    limit_price := r.limit_price, exit_price := r.exit_price
    start_date := r.start_date, end_date := r.end_date, funding := r.funding
    realised_pnl := r.realised_pnl, pnl := r.pnl
    is_profitable := r.is_profitable, timestamp := r.timestamp }

/-- The trades_dex table, modelled as an association list keyed by the
trade_id unique key (schema.sql). -/
abbrev TradeStore : Type := List (String × PersistedRow)

/-- ON DUPLICATE KEY UPDATE clause of processPositions: only the listed
columns are overwritten; user, trader_address, token and bias keep the values
of the existing row. -/
def upsertMerge (old new : PersistedRow) : PersistedRow :=
  { old with
    size := new.size, sum_open := new.sum_open, limit_price := new.limit_price
    exit_price := new.exit_price, start_date := new.start_date
    end_date := new.end_date, funding := new.funding
    realised_pnl := new.realised_pnl, pnl := new.pnl
    is_profitable := new.is_profitable, timestamp := new.timestamp }

/-- Read a row by its trade_id unique key. -/
def readByTradeId (store : TradeStore) (trade_id : String) : Option PersistedRow :=
  match store with
  | [] => none
  | e :: rest => if e.1 = trade_id then some e.2 else readByTradeId rest trade_id

/-- Insert one VALUES tuple under the trade_id unique key with the
insert-or-update semantics of the bulk upsert. -/
def upsertRow (store : TradeStore) (r : PersistedRow) : TradeStore :=
  if (readByTradeId store r.trade_id).isSome then
    store.map (fun e => if e.1 = r.trade_id then (e.1, upsertMerge e.2 r) else e)
  else
    store ++ [(r.trade_id, r)]

/-- processPositions (functions.ts lines 238-291) as seen by the store: an
empty batch is a no-op, otherwise every row is stripped of its lifecycle tag
and written through the bulk upsert.  (The open/close notification publish is
fire-and-forget and does not touch the store.) -/
def processPositions (store : TradeStore) (rows : List EmittedRow) : TradeStore :=
  if rows.isEmpty then store
  else rows.foldl (fun s r => upsertRow s (stripTag r)) store

/-! Deadlock retry loop of sqlBatchQuery (unnamed part_004 lines 43-68). -/

/-- database.ts MAX_RETRIES. -/
def MAX_RETRIES : ℕ := 5

/-- database.ts INITIAL_RETRY_DELAY (milliseconds). -/
def INITIAL_RETRY_DELAY : ℕ := 1000

/-- Outcome of one execution of pool.query, indexed by attempt number. -/
inductive DbOutcome (α : Type) where
  | ok (a : α)
  | err (code : String)
deriving DecidableEq, Repr

/-- Trace of one sqlBatchQuery call: the propagated result, the number of
attempts actually executed, and the list of backoff delays awaited. -/
structure RetryTrace (α : Type) where
  result : Except String α
  attemptsMade : ℕ
  delays : List ℕ
deriving Repr

/-- The while loop of sqlBatchQuery.  `outcomes n` is what the n-th attempt
(1-based) of pool.query returns.  fuel = MAX_RETRIES + 1 - attempt is an
invariant of every reachable call, so the fuel-exhausted branch (the JS loop
falling through, which cannot happen) is unreachable. -/
def sqlBatchQueryGo (outcomes : ℕ → DbOutcome α) :
    ℕ → ℕ → ℕ → List ℕ → RetryTrace α
  | 0, attempt, _, delays =>
    { result := Except.error "loop exited", attemptsMade := attempt - 1, delays := delays }
  | fuel + 1, attempt, delayMs, delays =>
    match outcomes attempt with
    | DbOutcome.ok a =>
      { result := Except.ok a, attemptsMade := attempt, delays := delays }
    | DbOutcome.err code =>
      if code = "ER_LOCK_DEADLOCK" ∧ attempt < MAX_RETRIES then
        sqlBatchQueryGo outcomes fuel (attempt + 1) (delayMs * 2) (delays ++ [delayMs])
      else
        { result := Except.error code, attemptsMade := attempt, delays := delays }

/-- sqlBatchQuery: up to MAX_RETRIES attempts starting with a 1000 ms
backoff that doubles after every deadlock. -/
def sqlBatchQuery (outcomes : ℕ → DbOutcome α) : RetryTrace α :=
  sqlBatchQueryGo outcomes MAX_RETRIES 1 INITIAL_RETRY_DELAY []

/-- One tick of the insertTrades cron job (unnamed part_002 lines 16-38) as
seen by the pending queue: TO_PROCESS is captured and cleared before the
write, and a thrown write error is caught and logged, so the captured batch
is never put back.  Returns the batch handed to processPositions and the
queue contents after the tick. -/
def insertTradesTick (queue : List EmittedRow) (writeResult : Except String Unit) :
    List EmittedRow × List EmittedRow :=
  (queue, match writeResult with
    | Except.ok _ => []
    | Except.error _ => [])

/-! Connection supervisor (src/services/websocket.ts): the reconnect
decision taken by each event handler of initWebSocketTraderMemory, as a
function of the session's shouldReconnect flag (the drain flag cleared by
closeConnection, lines 174-184). -/

/-- constants/dydx.ts: watchdog window in milliseconds. -/
def PING_INTERVAL : ℕ := 31000

/-- constants.ts: reconnect delay in milliseconds. -/
def RECONNECT_INTERVAL : ℕ := 1000

/-- The four code paths that can schedule a reconnect. -/
inductive ReconnectPath where
  | closeEvent        -- websocket close handler, lines 153-163
  | errorEvent        -- websocket error handler, lines 144-147
  | watchdogTimeout   -- heartbeat timer, lines 17-24: forces websocket.close()
  | messageFailure    -- catch in the message queue worker, lines 95-99
deriving DecidableEq, Repr

/-- Whether handling the given path schedules setTimeout(connect, ...) for a
session whose shouldReconnect flag currently has the given value.  The close
handler consults the flag; the error handler and the message-failure catch
call setTimeout(connect, RECONNECT_INTERVAL) unconditionally; the watchdog
only calls websocket.close(), so its reconnect decision is the close
handler's. -/
def reconnectAfter (shouldReconnect : Bool) : ReconnectPath → Bool
  | ReconnectPath.closeEvent => shouldReconnect
  | ReconnectPath.errorEvent => true
  | ReconnectPath.watchdogTimeout => shouldReconnect
  | ReconnectPath.messageFailure => true

/-- closeConnection (lines 174-184) sets shouldReconnect to this value. -/
def drainedFlag : Bool := false

/-! Account guard of the message worker (websocket.ts lines 62-72). -/

/-- The JS values the parsed account field can take. -/
inductive JsVal where
  | undef
  | null
  | str (s : String)
deriving DecidableEq, Repr

/-- The guard of the forced-reconnection branch:
parsedMessage.account strictly equals the string "undefined" or strictly
equals null.  JS strict equality never identifies undefined with either. -/
def accountViolationGuard (account : JsVal) : Bool :=
  match account with
  | JsVal.str s => s = "undefined"
  | JsVal.null => true
  | JsVal.undef => false

/-! Binary floating point model for the realised-PnL computation of
createNewPosition / updateExistingPosition (functions.ts lines 57-62 and
103-108).  The source evaluates
  position.sumClose * (Number(position.exitPrice) - Number(position.entryPrice))
with IEEE-754 double arithmetic.  For the concrete inputs sumClose = "1",
exitPrice = "0.3", entryPrice = "0.1" every step is pinned down exactly:
the two literals round to the doubles below (the half-ulp bounds are proved),
their difference is exactly representable (its numerator is an integer below
two to the 53rd at the common scale, proved), so the subtraction is exact,
and the multiplication by 1 is exact. -/

/-- Exact rational value of the IEEE-754 double nearest to 0.1
(ulp is 2 to the -55). -/
def double_0_1 : ℚ := 3602879701896397 / 2 ^ 55

/-- Exact rational value of the IEEE-754 double nearest to 0.3
(ulp is 2 to the -54). -/
def double_0_3 : ℚ := 5404319552844595 / 2 ^ 54

/-- The double the source's float expression produces for
sumClose = 1, exitPrice = "0.3", entryPrice = "0.1". -/
def floatRealisedPnlAt_1_03_01 : ℚ := 1 * (double_0_3 - double_0_1)

/-- The concrete position payload of the failing input: a LONG position with
sumClose 1, entryPrice 0.1, exitPrice 0.3. -/
def floatBugPosition : Position :=
  { market := "BTC-USD", side := "LONG", status := "OPEN"
    size := 2, sumOpen := 3, sumClose := 1
    entryPrice := some (1 / 10), exitPrice := some (3 / 10)
    netFunding := 0, createdAtHeight := "100", createdAt := "t0" }

/-! Concrete example values used by the claim theorems. -/

/-- Symbol filter that tracks everything. -/
def trackAll : String → Bool := fun _ => true

/-- A long lane: size 10 at entry price 100, funding 0, no partial close. -/
def exLaneLong : TraderPosition :=
  { user := 7, trade_id := "addr-BTCUSD-LONG-100", trader_address := "addr"
    token := "BTCUSD", bias := 1, size := 10, sum_open := 10, sum_close := 0
    limit_price := some 100, exit_price := none, start_date := "t0"
    end_date := none, funding := 0, realised_pnl := 0, pnl := 0
    is_profitable := 0, type := "open" }

/-- The flip frame position: the long lane of exLaneLong flipped to short
with reported entry price 110, closing size 10
(sumOpen 20 - abs size 10 - sumClose 0 = 10). -/
def exFlipPos : Position :=
  { market := "BTC-USD", side := "SHORT", status := "OPEN"
    size := -10, sumOpen := 20, sumClose := 0
    entryPrice := some 110, exitPrice := none, netFunding := 0
    createdAtHeight := "200", createdAt := "t1" }

/-- The fill accompanying the example frames. -/
def exFill : Fill := { createdAtHeight := "200", createdAt := "t1" }

/-- A short lane about to be fully closed. -/
def exLaneShort : TraderPosition :=
  { user := 7, trade_id := "addr-ETHUSD-SHORT-100", trader_address := "addr"
    token := "ETHUSD", bias := 0, size := -5, sum_open := 5, sum_close := 5
    limit_price := some 50, exit_price := none, start_date := "t0"
    end_date := none, funding := 0, realised_pnl := 0, pnl := 0
    is_profitable := 0, type := "open" }

/-- Full close of the short lane: entry price 50, exit price 40, size 5. -/
def exClosePos : Position :=
  { market := "ETH-USD", side := "SHORT", status := "CLOSED"
    size := 0, sumOpen := 5, sumClose := 5
    entryPrice := some 50, exitPrice := some 40, netFunding := 0
    createdAtHeight := "300", createdAt := "t2" }

/-- An incremental update matching case 2 (lane open, same direction). -/
def exUpdatePos : Position :=
  { market := "BTC-USD", side := "LONG", status := "OPEN"
    size := 12, sumOpen := 12, sumClose := 0
    entryPrice := some 101, exitPrice := none, netFunding := 0
    createdAtHeight := "400", createdAt := "t3" }

/-- A break-even full close of the short lane: exit price equals the entry
price, so the computed PnL is exactly zero. -/
def exBreakEvenPos : Position :=
  { market := "ETH-USD", side := "SHORT", status := "CLOSED"
    size := 0, sumOpen := 5, sumClose := 5
    entryPrice := some 50, exitPrice := some 50, netFunding := 0
    createdAtHeight := "300", createdAt := "t2" }

/-- Attempt outcomes whose first two attempts deadlock and whose third
succeeds. -/
def deadlockTwice : ℕ → DbOutcome ℕ :=
  fun n => if n ≤ 2 then DbOutcome.err "ER_LOCK_DEADLOCK" else DbOutcome.ok 42

/-- Attempt outcomes that always deadlock. -/
def deadlockAlways : ℕ → DbOutcome ℕ :=
  fun _ => DbOutcome.err "ER_LOCK_DEADLOCK"

/-! Helper lemmas: the lane map never holds two entries for one symbol. -/

/-- The key list of the lane map has no duplicates. -/
def keysNodup (m : LaneMap) : Prop :=
  (m.map Prod.fst).Nodup

theorem mapGet_eq_none_iff (m : LaneMap) (k : String) :
    mapGet m k = none ↔ k ∉ m.map Prod.fst := by
  induction m with
  | nil => simp [mapGet]
  | cons e rest ih =>
    by_cases h : e.1 = k
    · simp [mapGet, h]
    · simp [mapGet, h, ih, Ne.symm h]

theorem keys_mapSet_of_has (m : LaneMap) (k : String) (v : TraderPosition)
    (h : mapHas m k = true) :
    (mapSet m k v).map Prod.fst = m.map Prod.fst := by
  unfold mapSet
  rw [if_pos h, List.map_map]
  apply List.map_congr_left
  intro e _
  by_cases he : e.1 = k
  · simp [he]
  · simp [he]

theorem keysNodup_mapSet (m : LaneMap) (k : String) (v : TraderPosition)
    (h : keysNodup m) : keysNodup (mapSet m k v) := by
  by_cases hh : mapHas m k = true
  · unfold keysNodup
    rw [keys_mapSet_of_has m k v hh]
    exact h
  · unfold keysNodup mapSet
    rw [if_neg hh]
    have hk : k ∉ m.map Prod.fst := by
      rw [← mapGet_eq_none_iff]
      unfold mapHas at hh
      cases hg : mapGet m k with
      | none => rfl
      | some tp => rw [hg] at hh; simp at hh
    simp only [List.map_append, List.map_cons, List.map_nil]
    rw [List.nodup_append]
    exact ⟨h, List.nodup_singleton _, by simpa using hk⟩

theorem keysNodup_mapDelete (m : LaneMap) (k : String)
    (h : keysNodup m) : keysNodup (mapDelete m k) := by
  unfold keysNodup mapDelete
  exact List.Nodup.sublist (List.Sublist.map Prod.fst (List.filter_sublist m)) h

theorem updatePositionStep_fst_cases (u : ℕ) (tr : String → Bool) (a : String)
    (fs : List Fill) (m : LaneMap) (p : Position) :
    (updatePositionStep u tr a fs m p).1 = m ∨
    (∃ v, (updatePositionStep u tr a fs m p).1 = mapSet m (removeDashes p.market) v) ∨
    (updatePositionStep u tr a fs m p).1 = mapDelete m (removeDashes p.market) := by
  unfold updatePositionStep
  dsimp only
  repeat' split
  all_goals first
    | (left; rfl)
    | (right; left; exact ⟨_, rfl⟩)
    | (right; right; rfl)

theorem keysNodup_updatePositionStep (u : ℕ) (tr : String → Bool) (a : String)
    (fs : List Fill) (m : LaneMap) (p : Position) (h : keysNodup m) :
    keysNodup (updatePositionStep u tr a fs m p).1 := by
  rcases updatePositionStep_fst_cases u tr a fs m p with hc | ⟨v, hc⟩ | hc <;> rw [hc]
  · exact h
  · exact keysNodup_mapSet _ _ _ h
  · exact keysNodup_mapDelete _ _ h

theorem keysNodup_subscriptionStep (u : ℕ) (tr : String → Bool) (a : String)
    (acc : LaneMap × List TraderPosition) (entry : String × Position)
    (h : keysNodup acc.1) : keysNodup (subscriptionStep u tr a acc entry).1 := by
  unfold subscriptionStep
  dsimp only
  split
  · exact h
  · split
    · exact h
    · exact keysNodup_mapSet _ _ _ h

theorem keysNodup_foldl {β : Type}
    (f : (LaneMap × List TraderPosition) → β → (LaneMap × List TraderPosition))
    (hf : ∀ acc b, keysNodup acc.1 → keysNodup (f acc b).1) :
    ∀ (l : List β) (acc : LaneMap × List TraderPosition),
      keysNodup acc.1 → keysNodup (l.foldl f acc).1 := by
  intro l
  induction l with
  | nil => intro acc h; exact h
  | cons b rest ih => intro acc h; exact ih (f acc b) (hf acc b h)

theorem keysNodup_processSubscriptions (u : ℕ) (tr : String → Bool)
    (m : LaneMap) (a : String) (ps : Option (List (String × Position)))
    (h : keysNodup m) : keysNodup (processSubscriptions u tr m a ps).1 := by
  unfold processSubscriptions
  match ps with
  | none => exact h
  | some entries =>
    dsimp only
    split
    · exact h
    · exact keysNodup_foldl _ (keysNodup_subscriptionStep u tr a) entries (m, []) h

theorem keysNodup_updatePosition (u : ℕ) (tr : String → Bool) (a : String)
    (m : LaneMap) (ps : Option (List Position)) (fs : Option (List Fill))
    (h : keysNodup m) : keysNodup (updatePosition u tr a m ps fs).1 := by
  cases fs with
  | none => simpa [updatePosition] using h
  | some fills =>
    cases ps with
    | none => simpa [updatePosition] using h
    | some positions =>
      simp only [updatePosition]
      exact keysNodup_foldl _
        (fun acc p hacc => by
          dsimp only
          exact keysNodup_updatePositionStep u tr a fills acc.1 p hacc)
        positions (m, []) h

theorem keysNodup_applyEvents (u : ℕ) (tr : String → Bool) (a : String)
    (events : List FeedEvent) :
    ∀ (m : LaneMap), keysNodup m → keysNodup (applyEvents u tr a m events) := by
  induction events with
  | nil => intro m h; exact h
  | cons ev rest ih =>
    intro m h
    have h1 : keysNodup (applyEvent u tr a m ev) := by
      cases ev with
      | snapshot ps => exact keysNodup_processSubscriptions u tr m a ps h
      | update ps fs => exact keysNodup_updatePosition u tr a m ps fs h
    exact ih (applyEvent u tr a m ev) h1

/-! Helper lemmas for the deadlock retry loop and the upsert store. -/

/-- Specification of a finished retry trace whose first executed attempt was
`attempt`: bounded attempt count, doubling delays, the result reflects the
final attempt, and every earlier attempt hit a deadlock. -/
def RetrySpec {α : Type} (outcomes : ℕ → DbOutcome α) (attempt : ℕ)
    (t : RetryTrace α) : Prop :=
  attempt ≤ t.attemptsMade ∧
  t.attemptsMade ≤ MAX_RETRIES ∧
  t.delays = (List.range (t.attemptsMade - 1)).map
    (fun i => INITIAL_RETRY_DELAY * 2 ^ i) ∧
  (∀ code, t.result = Except.error code → outcomes t.attemptsMade = DbOutcome.err code) ∧
  (∀ x, t.result = Except.ok x → outcomes t.attemptsMade = DbOutcome.ok x) ∧
  (∀ i, attempt ≤ i → i < t.attemptsMade → outcomes i = DbOutcome.err "ER_LOCK_DEADLOCK")

theorem sqlBatchQueryGo_spec {α : Type} (outcomes : ℕ → DbOutcome α) :
    ∀ (fuel attempt : ℕ), 1 ≤ attempt → attempt ≤ MAX_RETRIES →
      attempt + fuel = MAX_RETRIES + 1 →
      RetrySpec outcomes attempt
        (sqlBatchQueryGo outcomes fuel attempt
          (INITIAL_RETRY_DELAY * 2 ^ (attempt - 1))
          ((List.range (attempt - 1)).map (fun i => INITIAL_RETRY_DELAY * 2 ^ i))) := by
  intro fuel
  induction fuel with
  | zero => intro attempt h1 h5 hsum; omega
  | succ fuel ih =>
    intro attempt h1 h5 hsum
    simp only [sqlBatchQueryGo]
    cases houtcome : outcomes attempt with
    | ok x =>
      unfold RetrySpec
      dsimp only
      refine ⟨Nat.le_refl _, h5, rfl, ?_, ?_, ?_⟩
      · intro code hcode; cases hcode
      · intro y hy
        cases hy
        exact houtcome
      · intro i hi1 hi2
        exact absurd hi2 (by omega)
    | err code =>
      dsimp only
      by_cases hcond : code = "ER_LOCK_DEADLOCK" ∧ attempt < MAX_RETRIES
      · rw [if_pos hcond]
        have harg1 : INITIAL_RETRY_DELAY * 2 ^ (attempt - 1) * 2 =
            INITIAL_RETRY_DELAY * 2 ^ (attempt + 1 - 1) := by
          have : attempt + 1 - 1 = (attempt - 1) + 1 := by omega
          rw [this, pow_succ]
          ring
        have harg2 : ((List.range (attempt - 1)).map
              (fun i => INITIAL_RETRY_DELAY * 2 ^ i)) ++
              [INITIAL_RETRY_DELAY * 2 ^ (attempt - 1)] =
            (List.range (attempt + 1 - 1)).map
              (fun i => INITIAL_RETRY_DELAY * 2 ^ i) := by
          have : attempt + 1 - 1 = (attempt - 1) + 1 := by omega
          rw [this, List.range_succ, List.map_append]
          rfl
        rw [harg1, harg2]
        obtain ⟨ha, hb, hc, hd, he, hf⟩ :=
          ih (attempt + 1) (by omega) (by omega) (by omega)
        refine ⟨by omega, hb, hc, hd, he, ?_⟩
        intro i hi1 hi2
        rcases Nat.eq_or_lt_of_le hi1 with heq | hlt
        · subst heq
          rw [houtcome, hcond.1]
        · exact hf i hlt hi2
      · rw [if_neg hcond]
        unfold RetrySpec
        dsimp only
        refine ⟨Nat.le_refl _, h5, rfl, ?_, ?_, ?_⟩
        · intro code' hcode'
          cases hcode'
          exact houtcome
        · intro y hy; cases hy
        · intro i hi1 hi2
          exact absurd hi2 (by omega)

theorem sqlBatchQuery_spec {α : Type} (outcomes : ℕ → DbOutcome α) :
    RetrySpec outcomes 1 (sqlBatchQuery outcomes) := by
  have h := sqlBatchQueryGo_spec outcomes MAX_RETRIES 1 (by omega) (by decide) (by omega)
  simpa [sqlBatchQuery] using h

theorem readByTradeId_append_fresh (store : TradeStore) (tid : String)
    (r : PersistedRow) (h : readByTradeId store tid = none) :
    readByTradeId (store ++ [(tid, r)]) tid = some r := by
  induction store with
  | nil => simp [readByTradeId]
  | cons e rest ih =>
    by_cases he : e.1 = tid
    · rw [readByTradeId, if_pos he] at h
      cases h
    · rw [readByTradeId, if_neg he] at h
      rw [List.cons_append, readByTradeId, if_neg he]
      exact ih h

/-! Claim theorems. -/

/-- C1 (code_bug evidence): the realised_pnl of createNewPosition /
updateExistingPosition is computed with JS Number (binary double) arithmetic,
not exact decimal arithmetic.  At the representable decimal inputs
sumClose = 1, exitPrice = "0.3", entryPrice = "0.1" the doubles nearest the
two price literals (correct rounding proved by the half-ulp bounds) subtract
exactly (the difference sits on an exactly representable dyadic, numerator
below 2 to the 53rd), and the resulting stored value differs from the exact
rational sumClose * (exitPrice - entryPrice) = 1/5 — even after the 6-decimal
truncation of convertToDecimal (199999 vs 200000 micro-units). -/
theorem realisedPnl_float_drift :
    floatRealisedPnlAt_1_03_01 = 7205759403792793 / 2 ^ 55 ∧
    ((7205759403792793 : ℤ) < 2 ^ 53 ∧ (2 ^ 52 : ℤ) ≤ 7205759403792793) ∧
    |double_0_1 - 1 / 10| ≤ 1 / 2 ^ 56 ∧
    |double_0_3 - 3 / 10| ≤ 1 / 2 ^ 55 ∧
    floatRealisedPnlAt_1_03_01 ≠ realisedPnlExact floatBugPosition ∧
    realisedPnlExact floatBugPosition = 1 / 5 ∧
    ratTrunc (floatRealisedPnlAt_1_03_01 * 10 ^ AMOUNT_DECIMALS) = 199999 ∧
    ratTrunc (realisedPnlExact floatBugPosition * 10 ^ AMOUNT_DECIMALS) = 200000 := by
  refine ⟨?_, ⟨by norm_num, by norm_num⟩, ?_, ?_, ?_, ?_, ?_, ?_⟩
  · norm_num [floatRealisedPnlAt_1_03_01, double_0_1, double_0_3]
  · rw [abs_le]
    constructor <;> norm_num [double_0_1]
  · rw [abs_le]
    constructor <;> norm_num [double_0_3]
  · norm_num [floatRealisedPnlAt_1_03_01, double_0_1, double_0_3,
      realisedPnlExact, floatBugPosition]
  · norm_num [realisedPnlExact, floatBugPosition]
  · norm_num [ratTrunc, floatRealisedPnlAt_1_03_01, double_0_1, double_0_3,
      AMOUNT_DECIMALS]
  · norm_num [ratTrunc, realisedPnlExact, floatBugPosition, AMOUNT_DECIMALS]

/-- C2: on a flip (case 3 of updatePosition), the closing row's exit price is
the size-weighted average of the newly reported entry price (weight: the
newly closed amount sumOpen - abs size - sumClose) and the lane's prior
partial exit price (weight: the lane's cumulative closed size), the reported
entry price alone when no prior partial exit exists; the closing PnL is the
signed closing size times (that average minus the lane's entry price) plus
accumulated funding.  Concretely, a long lane of size 10 at entry 100 with
funding 0 flipped to short at reported entry 110 with closing size 10 yields
closing PnL 100 and the freshly opened lane carries direction flag 0
(short), opposite to the old lane's 1. -/
theorem flip_exit_price_and_pnl (tp : TraderPosition) (p : Position)
    (ed : String) (entryP limitP : ℚ)
    (he : p.entryPrice = some entryP) (hl : tp.limit_price = some limitP)
    (_hden : tp.exit_price = none ∨
      tp.sum_close + (p.sumOpen - |p.size| - p.sumClose) ≠ 0) :
    (∃ tp', flipPosition tp p ed = Except.ok tp' ∧
      tp'.exit_price = some (match tp.exit_price with
        | some prevExit =>
          ((p.sumOpen - |p.size| - p.sumClose) * entryP + tp.sum_close * prevExit) /
            (tp.sum_close + (p.sumOpen - |p.size| - p.sumClose))
        | none => entryP) ∧
      tp'.size = (if tp.bias = 0
        then -(tp.sum_close + (p.sumOpen - |p.size| - p.sumClose))
        else tp.sum_close + (p.sumOpen - |p.size| - p.sumClose)) ∧
      (∀ avgClose, tp'.exit_price = some avgClose →
        tp'.pnl = tp'.size * (avgClose - limitP) + tp.funding) ∧
      tp'.type = "close") ∧
    (∃ tpc, flipPosition exLaneLong exFlipPos "t1" = Except.ok tpc ∧
      tpc.pnl = 100 ∧ tpc.is_profitable = 1 ∧ tpc.type = "close") ∧
    ((updatePositionStep 7 trackAll "addr" [exFill]
        [("BTCUSD", exLaneLong)] exFlipPos).2.map TraderPosition.type = ["close", "open"] ∧
     (updatePositionStep 7 trackAll "addr" [exFill]
        [("BTCUSD", exLaneLong)] exFlipPos).2.map TraderPosition.bias = [1, 0] ∧
     (updatePositionStep 7 trackAll "addr" [exFill]
        [("BTCUSD", exLaneLong)] exFlipPos).1.map (fun e => e.2.bias) = [0] ∧
     exLaneLong.bias = 1) := by
  refine ⟨?_, ?_, ?_⟩
  · unfold flipPosition
    rw [he, hl]
    dsimp only
    refine ⟨_, rfl, ?_, rfl, ?_, rfl⟩
    · cases tp.exit_price <;> rfl
    · intro avgClose havg
      dsimp only at havg ⊢
      cases havg
      rfl
  · refine ⟨_, rfl, ?_, ?_, rfl⟩ <;> norm_num [exLaneLong, exFlipPos]
  · exact ⟨by decide, by decide, by decide, by decide⟩

/-- C2 witness: the flip theorem applied to the concrete long-to-short flip
of the example lane. -/
theorem flip_exit_price_and_pnl_witness :
    (∃ tp', flipPosition exLaneLong exFlipPos "t1" = Except.ok tp' ∧
      tp'.pnl = 100 ∧ tp'.is_profitable = 1 ∧ tp'.type = "close") ∧
    exLaneLong.bias = 1 := by
  obtain ⟨_, hconc, _, _, _, hbias⟩ :=
    flip_exit_price_and_pnl exLaneLong exFlipPos "t1" 110 100 rfl rfl (Or.inl rfl)
  exact ⟨hconc, hbias⟩

/-- C3: on a full close (case 4 of updatePosition), closePosition computes
the final PnL as signed size times (exit price minus entry price), the size
negated for short lanes, and tags the row close.  Concretely the short lane
with closing size 5, entry price 50 and exit price 40 yields PnL 50 with
profitability flag 1, and case 4 removes the lane from the live map. -/
theorem close_pnl_formula (tp : TraderPosition) (p : Position) (ed : String)
    (exitP entryP : ℚ)
    (he : p.exitPrice = some exitP) (hen : p.entryPrice = some entryP) :
    (∃ tp', closePosition tp p ed = Except.ok tp' ∧
      tp'.size = (if p.side = "LONG" then p.sumClose else -p.sumClose) ∧
      tp'.pnl = (if p.side = "LONG" then p.sumClose else -p.sumClose) * (exitP - entryP) ∧
      tp'.end_date = some ed ∧
      tp'.type = "close") ∧
    (∃ tpc, closePosition exLaneShort exClosePos "t2" = Except.ok tpc ∧
      tpc.pnl = 50 ∧ tpc.is_profitable = 1 ∧ tpc.type = "close") ∧
    (updatePositionStep 7 trackAll "addr" [exFill]
        [("ETHUSD", exLaneShort)] exClosePos).1 = [] ∧
    (updatePositionStep 7 trackAll "addr" [exFill]
        [("ETHUSD", exLaneShort)] exClosePos).2.map TraderPosition.type = ["close"] := by
  have hside : ¬ (("SHORT" : String) = "LONG") := by decide
  refine ⟨?_, ?_, ?_, ?_⟩
  · unfold closePosition
    rw [he, hen]
    dsimp only
    exact ⟨_, rfl, rfl, rfl, rfl, rfl⟩
  · refine ⟨_, rfl, ?_, ?_, rfl⟩ <;>
      · dsimp only [exClosePos]
        rw [if_neg hside]
        norm_num
  · decide
  · decide

/-- C3 witness: the close theorem applied to the concrete short-lane full
close. -/
theorem close_pnl_formula_witness :
    ∃ tpc, closePosition exLaneShort exClosePos "t2" = Except.ok tpc ∧
      tpc.pnl = 50 ∧ tpc.is_profitable = 1 ∧ tpc.type = "close" := by
  obtain ⟨_, hconc, _, _⟩ :=
    close_pnl_formula exLaneShort exClosePos "t2" 40 50 rfl rfl
  exact hconc

/-- C4 counterexample: with a present position list and a present but empty
fill list, an incremental update is not dropped — a case-2 update of an
existing same-direction lane emits a ledger row (tagged update) and mutates
the lane, contradicting the claim that an empty fill list drops the update
entirely. -/
theorem updatePosition_empty_fill_list_processed :
    (updatePosition 7 trackAll "addr" [("BTCUSD", exLaneLong)]
        (some [exUpdatePos]) (some [])).2.map TraderPosition.type = ["update"] ∧
    (updatePosition 7 trackAll "addr" [("BTCUSD", exLaneLong)]
        (some [exUpdatePos]) (some [])).2 ≠ [] ∧
    (updatePosition 7 trackAll "addr" [("BTCUSD", exLaneLong)]
        (some [exUpdatePos]) (some [])).1.map (fun e => e.2.type) = ["update"] ∧
    exLaneLong.type = "open" := by
  refine ⟨by decide, by decide, by decide, by decide⟩

/-- C4 (amended): updatePosition drops the frame outright only when the fill
list or the position list is absent (falsy); an update with both lists
present is processed even when the fill list is empty — positions that need
fill metadata (no existing lane, flips, closes: cases 1, 3 and 4) then fail
on the fills[0] access and are skipped one by one, but a case-2 update of an
open same-direction lane reads no fill data, emits its row and mutates the
lane, as the counterexample shows. -/
theorem updatePosition_absent_lists_dropped (u : ℕ) (tr : String → Bool)
    (a : String) (m : LaneMap) (ps : Option (List Position))
    (fs : Option (List Fill)) :
    updatePosition u tr a m ps none = (m, []) ∧
    updatePosition u tr a m none fs = (m, []) ∧
    (updatePosition 7 trackAll "addr" [("BTCUSD", exLaneLong)]
        (some [exUpdatePos]) (some [])).2.map TraderPosition.type = ["update"] ∧
    (∀ p : Position, mapGet m (removeDashes p.market) = none →
      updatePositionStep u tr a [] m p = (m, [])) := by
  refine ⟨rfl, ?_, by decide, ?_⟩
  · cases fs <;> rfl
  · intro p hget
    unfold updatePositionStep
    dsimp only
    rw [hget]
    split <;> rfl

/-- C4 witness: the amended theorem applied at a concrete map and frame. -/
theorem updatePosition_absent_lists_dropped_witness :
    updatePosition 7 trackAll "addr" [("BTCUSD", exLaneLong)]
      (some [exUpdatePos]) none = ([("BTCUSD", exLaneLong)], []) ∧
    updatePositionStep 7 trackAll "addr" [] [] exUpdatePos = ([], []) := by
  obtain ⟨h1, _, _, h4⟩ :=
    updatePosition_absent_lists_dropped 7 trackAll "addr"
      ([] : LaneMap) (some [exUpdatePos]) none
  refine ⟨?_, h4 exUpdatePos rfl⟩
  exact updatePosition_absent_lists_dropped 7 trackAll "addr"
    [("BTCUSD", exLaneLong)] (some [exUpdatePos]) none |>.1

/-- C5 counterexample: the row the processor queue emits carries no
cumulative-close value — two trader positions that differ only in sum_close
produce identical emitted rows and identical persisted stores, so re-reading
a persisted row cannot return sum_close field-for-field. -/
theorem persisted_row_loses_sum_close :
    processorQueueRow "now" exLaneLong =
      processorQueueRow "now" { exLaneLong with sum_close := 1 } ∧
    exLaneLong.sum_close ≠
      ({ exLaneLong with sum_close := 1 } : TraderPosition).sum_close ∧
    processPositions [] [processorQueueRow "now" exLaneLong] =
      processPositions [] [processorQueueRow "now"
        { exLaneLong with sum_close := 1 }] := by
  refine ⟨rfl, by norm_num [exLaneLong], rfl⟩

/-- C5 (amended): a row emitted by the ledger engine is persisted through the
batch upsert keyed by its deterministic trade identifier with every field the
insert carries — user, trade_id, address, token, bias, size, sum_open,
limit_price, exit_price, start_date, end_date, funding, realised_pnl, pnl,
is_profitable and the server timestamp, but not sum_close, which the
processor queue drops — and re-reading a freshly inserted row by trade
identifier returns exactly those persisted fields. -/
theorem persist_roundtrip_excluding_sum_close (store : TradeStore)
    (now : String) (tp : TraderPosition)
    (hfresh : readByTradeId store tp.trade_id = none) :
    readByTradeId (processPositions store [processorQueueRow now tp])
        tp.trade_id = some (stripTag (processorQueueRow now tp)) ∧
    (stripTag (processorQueueRow now tp)).trade_id =
      (processorQueueRow now tp).trade_id ∧
    (stripTag (processorQueueRow now tp)).size = (processorQueueRow now tp).size ∧
    (stripTag (processorQueueRow now tp)).sum_open =
      (processorQueueRow now tp).sum_open ∧
    (stripTag (processorQueueRow now tp)).realised_pnl =
      (processorQueueRow now tp).realised_pnl ∧
    (stripTag (processorQueueRow now tp)).pnl = (processorQueueRow now tp).pnl ∧
    (stripTag (processorQueueRow now tp)).is_profitable =
      (processorQueueRow now tp).is_profitable ∧
    (stripTag (processorQueueRow now tp)).timestamp =
      (processorQueueRow now tp).timestamp := by
  refine ⟨?_, rfl, rfl, rfl, rfl, rfl, rfl, rfl⟩
  have hpp : processPositions store [processorQueueRow now tp] =
      upsertRow store (stripTag (processorQueueRow now tp)) := rfl
  have htid : (stripTag (processorQueueRow now tp)).trade_id = tp.trade_id := rfl
  rw [hpp]
  unfold upsertRow
  rw [htid, hfresh]
  exact readByTradeId_append_fresh store tp.trade_id _ hfresh

/-- C5 witness: the round-trip theorem applied at the empty store and the
example lane row. -/
theorem persist_roundtrip_excluding_sum_close_witness :
    readByTradeId (processPositions [] [processorQueueRow "ts" exLaneLong])
      exLaneLong.trade_id = some (stripTag (processorQueueRow "ts" exLaneLong)) :=
  (persist_roundtrip_excluding_sum_close [] "ts" exLaneLong rfl).1

/-- C6: sqlBatchQuery retries ER_LOCK_DEADLOCK with exponentially doubling
delays starting at 1000 ms and executes at most MAX_RETRIES = 5 attempts; a
call whose first two attempts deadlock and whose third succeeds finishes
with exactly 3 attempts, delays 1s and 2s, and returns the result; a
non-deadlock error, or a deadlock on the final attempt, is propagated as the
result of the final attempt while every earlier attempt was a deadlock; and
a failed tick of the insertTrades cron leaves the captured batch out of the
queue (dropped, not re-queued). -/
theorem sqlBatchQuery_deadlock_retries (outcomes : ℕ → DbOutcome ℕ)
    (q : List EmittedRow) (e : String) :
    sqlBatchQuery deadlockTwice =
      { result := Except.ok 42, attemptsMade := 3, delays := [1000, 2000] } ∧
    sqlBatchQuery deadlockAlways =
      { result := Except.error "ER_LOCK_DEADLOCK", attemptsMade := 5,
        delays := [1000, 2000, 4000, 8000] } ∧
    (sqlBatchQuery outcomes).attemptsMade ≤ MAX_RETRIES ∧
    (sqlBatchQuery outcomes).delays =
      (List.range ((sqlBatchQuery outcomes).attemptsMade - 1)).map
        (fun i => INITIAL_RETRY_DELAY * 2 ^ i) ∧
    (∀ code, (sqlBatchQuery outcomes).result = Except.error code →
      outcomes (sqlBatchQuery outcomes).attemptsMade = DbOutcome.err code) ∧
    (∀ x, (sqlBatchQuery outcomes).result = Except.ok x →
      outcomes (sqlBatchQuery outcomes).attemptsMade = DbOutcome.ok x) ∧
    (∀ i, 1 ≤ i → i < (sqlBatchQuery outcomes).attemptsMade →
      outcomes i = DbOutcome.err "ER_LOCK_DEADLOCK") ∧
    (insertTradesTick q (Except.error e)).2 = [] := by
  obtain ⟨_, hb, hc, hd, he', hf⟩ := sqlBatchQuery_spec outcomes
  exact ⟨rfl, rfl, hb, hc, hd, he', hf, rfl⟩

/-- C6 witness: the retry theorem applied to the all-deadlock outcome
sequence, a concrete batch and a concrete error. -/
theorem sqlBatchQuery_deadlock_retries_witness :
    sqlBatchQuery deadlockTwice =
      { result := Except.ok 42, attemptsMade := 3, delays := [1000, 2000] } ∧
    (sqlBatchQuery deadlockAlways).attemptsMade ≤ MAX_RETRIES ∧
    deadlockAlways 1 = DbOutcome.err "ER_LOCK_DEADLOCK" ∧
    (insertTradesTick [] (Except.error "boom")).2 = [] := by
  obtain ⟨h1, _, h3, _, _, _, h7, h8⟩ :=
    sqlBatchQuery_deadlock_retries deadlockAlways [] "boom"
  exact ⟨h1, h3, h7 1 (by omega) (by decide), h8⟩

/-- C7 counterexample: with the drain flag set (shouldReconnect = false), the
socket error handler and the message-processing failure path still schedule
a reconnect — the drain flag is not consulted on those paths, contradicting
the claim that it is consulted before every reconnect attempt. -/
theorem drained_error_path_still_reconnects :
    reconnectAfter drainedFlag ReconnectPath.errorEvent = true ∧
    reconnectAfter drainedFlag ReconnectPath.messageFailure = true := by
  decide

/-- C7 (amended): after closeConnection sets the drain flag, the socket
close handler — and therefore the watchdog-forced close, which reconnects
through it — does not reconnect; but the socket error handler and the
message-processing failure path schedule a reconnect unconditionally,
ignoring the drain flag. -/
theorem drain_flag_consulted_only_on_close_paths :
    (∀ b, reconnectAfter b ReconnectPath.closeEvent = b) ∧
    (∀ b, reconnectAfter b ReconnectPath.watchdogTimeout = b) ∧
    (∀ b, reconnectAfter b ReconnectPath.errorEvent = true) ∧
    (∀ b, reconnectAfter b ReconnectPath.messageFailure = true) ∧
    reconnectAfter drainedFlag ReconnectPath.closeEvent = false ∧
    reconnectAfter drainedFlag ReconnectPath.watchdogTimeout = false := by
  refine ⟨fun b => rfl, fun b => rfl, fun b => rfl, fun b => rfl, rfl, rfl⟩

/-- C8 (code_bug evidence): the message worker's guard compares the account
field with the string literal "undefined" and with null under JS strict
equality, so a frame whose account is actually undefined (the field is
absent and cannot be resolved) does not trigger the forced close — only a
literal null or the literal string "undefined" does, contradicting both the
claim and the source comment above the guard. -/
theorem undefined_account_frame_not_closed :
    accountViolationGuard JsVal.undef = false ∧
    accountViolationGuard JsVal.null = true ∧
    accountViolationGuard (JsVal.str "undefined") = true := by
  decide

/-- C9: for every sequence of snapshot and incremental frames applied to one
trader's lane map (which starts empty when the session connects), the map
holds at most one live entry per instrument symbol at every point:
processSubscriptions skips instruments already present and updatePosition
only ever replaces in place via Map.set or removes via Map.delete. -/
theorem laneMap_at_most_one_entry (u : ℕ) (tr : String → Bool) (a : String)
    (events : List FeedEvent) (sym : String) :
    countKey (applyEvents u tr a [] events) sym ≤ 1 := by
  have h : keysNodup (applyEvents u tr a [] events) :=
    keysNodup_applyEvents u tr a events [] (by simp [keysNodup])
  exact List.nodup_iff_count_le_one.mp h sym

/-- C10: the profitability flag is 1 exactly when the pnl computed by a
close or flip transition is strictly positive (a break-even close gets 0),
and rows produced by createNewPosition and updateExistingPosition always
carry is_profitable = 0, whatever their realised PnL. -/
theorem is_profitable_iff_positive_pnl (u : ℕ) (p : Position) (a : String)
    (bh ca : Option String) (ty ed : String) (tp : TraderPosition) :
    (createNewPosition u p a bh ca ty).is_profitable = 0 ∧
    (updateExistingPosition tp p).is_profitable = 0 ∧
    (∀ tp', closePosition tp p ed = Except.ok tp' →
      (tp'.is_profitable = 1 ↔ 0 < tp'.pnl)) ∧
    (∀ tp', flipPosition tp p ed = Except.ok tp' →
      (tp'.is_profitable = 1 ↔ 0 < tp'.pnl)) ∧
    (∀ tp', closePosition tp p ed = Except.ok tp' → tp'.pnl = 0 →
      tp'.is_profitable = 0) := by
  have hiff : ∀ q : ℚ, ((if 0 < q then (1 : ℕ) else 0) = 1 ↔ 0 < q) := by
    intro q
    by_cases hq : 0 < q <;> simp [hq]
  have hclose : ∀ tp', closePosition tp p ed = Except.ok tp' →
      tp'.is_profitable = if 0 < tp'.pnl then 1 else 0 := by
    intro tp' h
    unfold closePosition at h
    cases hx : p.exitPrice with
    | none => rw [hx] at h; cases h
    | some exitP =>
      cases hy : p.entryPrice with
      | none => rw [hx, hy] at h; cases h
      | some entryP =>
        rw [hx, hy] at h
        dsimp only at h
        cases h
        rfl
  have hflip : ∀ tp', flipPosition tp p ed = Except.ok tp' →
      tp'.is_profitable = if 0 < tp'.pnl then 1 else 0 := by
    intro tp' h
    unfold flipPosition at h
    cases hx : p.entryPrice with
    | none => rw [hx] at h; cases h
    | some entryP =>
      cases hy : tp.limit_price with
      | none => rw [hx, hy] at h; cases h
      | some limitP =>
        rw [hx, hy] at h
        dsimp only at h
        cases h
        rfl
  refine ⟨rfl, rfl, ?_, ?_, ?_⟩
  · intro tp' h
    rw [hclose tp' h]
    exact hiff _
  · intro tp' h
    rw [hflip tp' h]
    exact hiff _
  · intro tp' h hzero
    rw [hclose tp' h, hzero]
    norm_num

/-- C10 witness: the profitability theorem applied at the concrete close and
flip of the example short lane, including a break-even close with PnL 0. -/
theorem is_profitable_iff_positive_pnl_witness :
    (createNewPosition 7 exClosePos "addr" none none "open").is_profitable = 0 ∧
    (updateExistingPosition exLaneShort exClosePos).is_profitable = 0 ∧
    (∃ tp', closePosition exLaneShort exClosePos "t2" = Except.ok tp' ∧
      (tp'.is_profitable = 1 ↔ 0 < tp'.pnl)) ∧
    (∃ tp', flipPosition exLaneShort exClosePos "t2" = Except.ok tp' ∧
      (tp'.is_profitable = 1 ↔ 0 < tp'.pnl)) ∧
    (∃ tp', closePosition exLaneShort exBreakEvenPos "t2" = Except.ok tp' ∧
      tp'.is_profitable = 0) := by
  obtain ⟨h1, h2, h3, h4, _⟩ :=
    is_profitable_iff_positive_pnl 7 exClosePos "addr" none none "open" "t2" exLaneShort
  obtain ⟨_, _, _, _, k5⟩ :=
    is_profitable_iff_positive_pnl 7 exBreakEvenPos "addr" none none "open" "t2" exLaneShort
  refine ⟨h1, h2, ⟨_, rfl, h3 _ rfl⟩, ⟨_, rfl, h4 _ rfl⟩, ⟨_, rfl, k5 _ rfl ?_⟩⟩
  have hside : ¬ (("SHORT" : String) = "LONG") := by decide
  dsimp only [exBreakEvenPos]
  rw [if_neg hside]
  norm_num

end DydxTracker
